import Mathlib

/-!
Verification development for the `QGraphList` collection class
(src/QGraphList.py of ziofil/QuantumGraphs).

The Python class is embedded shallowly:

* `QGraph` models the external graph collaborator: a record of the
  attributes the collection reads (`exploration`, `walkers`, `nodes`,
  `diameter`, `clustering_coefficient`, `degree_distribution`,
  `leaf_fraction`).  Real-valued attributes are modelled as rationals;
  no claim performs arithmetic on them, they are only stored and
  compared for equality.
* `QGraphList` is the collection state: the owned list, the memoized
  dataframe (`dataframe_`), the per-instance `numbers` word table and
  the bound `filename`.
* The file system is an association list `FS` from names to the saved
  sequence (`np.save`/`np.load` round-trip a sequence of graphs; the
  ndarray/list distinction is abstracted to the sequence of elements).
* Methods that can raise return the raised error (if any) together with
  the post-state; a method raises exactly where the Python code does,
  so the post-state on an error is whatever had been mutated before the
  raise.
* For aliasing claims a second, store-passing model (`RefModel`) makes
  the identity of the underlying Python list object explicit: a heap is
  a list of list objects and a collection holds a reference into it.
-/

namespace QGraphs

/-- Python exceptions raised by the code paths modelled here. -/
inductive PyErr where
  | valueError
  | typeError
  | keyError
  | attributeError
  | ioError
deriving DecidableEq, Repr

/-- Values that can sit in a dataframe cell or be the value of a
`QGraph` attribute (Python is dynamically typed; select/exclude compare
attribute values against a caller-supplied list with `==`). -/
inductive PyVal where
  | intV : Int → PyVal
  | ratV : ℚ → PyVal
  | strV : String → PyVal
  | distV : List (Int × Int) → PyVal
deriving DecidableEq, Repr

/-- The external `QGraph` collaborator, reduced to the attributes the
collection reads.  Lazy computation is invisible to the collection (a
read always yields the value), so attributes are plain fields. -/
structure QGraph where
  walkers : Int
  exploration : ℚ
  nodes : Int
  diameter : Int
  clustering_coefficient : ℚ
  degree_distribution : List (Int × Int)
  leaf_fraction : ℚ
deriving DecidableEq, Repr

/-- A pandas dataframe, reduced to what the code observes: named
columns and rows of cells. -/
structure DataFrame where
  columns : List String
  rows : List (List PyVal)
deriving DecidableEq, Repr

/-- `self.numbers = {1:'one', ..., 8:'eight'}` from `__init__`. -/
def numbersTable : List (Int × String) :=
  [(1, "one"), (2, "two"), (3, "three"), (4, "four"),
   (5, "five"), (6, "six"), (7, "seven"), (8, "eight")]

/-- The state of a `QGraphList` instance. -/
structure QGraphList where
  list : List QGraph
  dataframe_ : Option DataFrame
  numbers : List (Int × String)
  filename : Option String
deriving DecidableEq, Repr

/-- `QGraphList.__init__`, value level: `self.list = lst or []` (for
`None` or an empty list a fresh empty list, otherwise the argument),
`self.dataframe_ = None`, the fixed word table, `self.filename = None`.
The `ValueError` branch for a non-list argument is outside this model's
input type. -/
def pyInit (lst : Option (List QGraph)) : QGraphList :=
  { list := lst.getD [], dataframe_ := none,
    numbers := numbersTable, filename := none }

/-- The file system: names with the sequence last saved under them. -/
abbrev FS := List (String × List QGraph)

/-- `np.save(filename, self.list)`: bind `filename` to the sequence. -/
def fsSet (fs : FS) (name : String) (v : List QGraph) : FS :=
  (name, v) :: fs

/-- `np.load(filename)`: the sequence last saved under `filename`. -/
def fsLookup (fs : FS) (name : String) : Option (List QGraph) :=
  fs.lookup name

/-- The characters of the required extension `'.npy'`. -/
def npyChars : List Char := ['.', 'n', 'p', 'y']

/-- Python's `filename[-4:]`: the last four characters, or the whole
string when it is shorter (Nat subtraction gives exactly this). -/
def pyTail4 (s : String) : List Char :=
  s.data.drop (s.data.length - 4)

/-- The spec's wording: the path ends with the required extension. -/
def EndsNpy (s : String) : Prop :=
  ∃ t, s.data = t ++ npyChars

instance (s : String) : Decidable (EndsNpy s) := by
  unfold EndsNpy
  by_cases h : pyTail4 s = npyChars
  · exact .isTrue ⟨s.data.take (s.data.length - 4), by
      conv_lhs => rw [← List.take_append_drop (s.data.length - 4) s.data]
      rw [show s.data.drop (s.data.length - 4) = npyChars from h]⟩
  · refine .isFalse ?_
    rintro ⟨t, ht⟩
    apply h
    unfold pyTail4
    rw [ht]
    have hl : (t ++ npyChars).length - 4 = t.length := by
      simp [npyChars]
    rw [hl, List.drop_left]

/-- The code's check agrees with the spec's "ends with `.npy`". -/
theorem pyTail4_eq_iff_endsNpy (s : String) :
    pyTail4 s = npyChars ↔ EndsNpy s := by
  constructor
  · intro h
    exact ⟨s.data.take (s.data.length - 4), by
      conv_lhs => rw [← List.take_append_drop (s.data.length - 4) s.data]
      rw [show s.data.drop (s.data.length - 4) = npyChars from h]⟩
  · rintro ⟨t, ht⟩
    unfold pyTail4
    rw [ht]
    have hl : (t ++ npyChars).length - 4 = t.length := by
      simp [npyChars]
    rw [hl, List.drop_left]

/-- `QGraphList.save`: raise `ValueError` unless the name ends in
`.npy`; otherwise bind the filename and write the sequence.  The raise
happens before any mutation, so on error the state is unchanged. -/
def save (self : QGraphList) (fs : FS) (filename : String) :
    Option PyErr × QGraphList × FS :=
  if pyTail4 filename = npyChars then
    (none, { self with filename := some filename },
     fsSet fs filename self.list)
  else
    (some .valueError, self, fs)

/-- `QGraphList.load`: raise `ValueError` unless the name ends in
`.npy`; otherwise bind the filename and then replace `self.list` with
the loaded sequence.  The filename is bound before `np.load` runs, so a
missing file leaves it bound; note that `self.dataframe_` is not
touched. -/
def load (self : QGraphList) (fs : FS) (filename : String) :
    Option PyErr × QGraphList × FS :=
  if pyTail4 filename = npyChars then
    match fsLookup fs filename with
    | some l =>
        (none, { self with filename := some filename, list := l }, fs)
    | none =>
        (some .ioError, { self with filename := some filename }, fs)
  else
    (some .valueError, self, fs)

/-- The seven column names of the summary dataframe. -/
def columns7 : List String :=
  ["exploration", "walkers", "nodes", "diameter", "clustering",
   "degree distribution", "leaf fraction"]

/-- One row of the dataframe comprehension:
`(G.exploration, self.numbers[G.walkers], G.nodes, G.diameter,
G.clustering_coefficient, G.degree_distribution, G.leaf_fraction)`.
The dict subscript raises `KeyError` when `G.walkers` is not a key. -/
def rowOf (nums : List (Int × String)) (G : QGraph) :
    Except PyErr (List PyVal) :=
  match nums.lookup G.walkers with
  | some w =>
      .ok [.ratV G.exploration, .strV w, .intV G.nodes,
           .intV G.diameter, .ratV G.clustering_coefficient,
           .distV G.degree_distribution, .ratV G.leaf_fraction]
  | none => .error .keyError

/-- The list comprehension over `self.list`, in order, stopping at the
first raised `KeyError`. -/
def buildRows (nums : List (Int × String)) :
    List QGraph → Except PyErr (List (List PyVal))
  | [] => .ok []
  | G :: rest =>
      match rowOf nums G with
      | .error e => .error e
      | .ok r =>
          match buildRows nums rest with
          | .error e => .error e
          | .ok rs => .ok (r :: rs)

/-- The `dataframe` property: build and memoize the table if the cache
is empty (the comprehension raises before the assignment, so a
`KeyError` leaves the cache empty); then, if a filename is bound
(truthy), re-save to it; finally return the cached table.  Returns the
raised error if any, the returned table if none, and the post-state. -/
def dataframe (self : QGraphList) (fs : FS) :
    Option PyErr × Option DataFrame × QGraphList × FS :=
  match self.dataframe_ with
  | some df => dataframeTail df self fs
  | none =>
      match buildRows self.numbers self.list with
      | .error e => (some e, none, self, fs)
      | .ok rows =>
          let df : DataFrame := ⟨columns7, rows⟩
          dataframeTail df { self with dataframe_ := some df } fs
where
  /-- The `if self.filename: self.save(self.filename)` tail followed by
  `return self.dataframe_` (`None` and the empty string are falsy). -/
  dataframeTail (df : DataFrame) (st : QGraphList) (fs : FS) :
      Option PyErr × Option DataFrame × QGraphList × FS :=
    match st.filename with
    | none => (none, some df, st, fs)
    | some f =>
        if f.data.isEmpty then (none, some df, st, fs)
        else
          match save st fs f with
          | (some e, st', fs') => (some e, none, st', fs')
          | (none, st', fs') => (none, some df, st', fs')

/-- `QGraphList.append`: push the graph and reset the memoized table. -/
def append (self : QGraphList) (G : QGraph) : QGraphList :=
  { self with list := self.list ++ [G], dataframe_ := none }

/-- The attribute names a `QGraph` exposes to `getattr`. -/
def attrNames : List String :=
  ["walkers", "exploration", "nodes", "diameter",
   "clustering_coefficient", "degree_distribution", "leaf_fraction"]

/-- `getattr(G, p)`: the attribute's value, or `none` for the
`AttributeError` an unknown name raises. -/
def getattrOpt (G : QGraph) (p : String) : Option PyVal :=
  if p = "walkers" then some (.intV G.walkers)
  else if p = "exploration" then some (.ratV G.exploration)
  else if p = "nodes" then some (.intV G.nodes)
  else if p = "diameter" then some (.intV G.diameter)
  else if p = "clustering_coefficient" then
    some (.ratV G.clustering_coefficient)
  else if p = "degree_distribution" then
    some (.distV G.degree_distribution)
  else if p = "leaf_fraction" then some (.ratV G.leaf_fraction)
  else none

/-- The comprehension `[G for G in l if getattr(G, p) in values]`,
raising at the first element whose attribute lookup fails. -/
def selectFilter (p : String) (values : List PyVal) :
    List QGraph → Except PyErr (List QGraph)
  | [] => .ok []
  | G :: rest =>
      match getattrOpt G p with
      | none => .error .attributeError
      | some v =>
          match selectFilter p values rest with
          | .error e => .error e
          | .ok r => .ok (if values.contains v then G :: r else r)

/-- `[G for G in l if getattr(G, p) not in values]`. -/
def excludeFilter (p : String) (values : List PyVal) :
    List QGraph → Except PyErr (List QGraph)
  | [] => .ok []
  | G :: rest =>
      match getattrOpt G p with
      | none => .error .attributeError
      | some v =>
          match excludeFilter p values rest with
          | .error e => .error e
          | .ok r => .ok (if values.contains v then r else G :: r)

/-- `QGraphList.select`: a new `QGraphList` built from the kept
elements. -/
def select (self : QGraphList) (p : String) (values : List PyVal) :
    Except PyErr QGraphList :=
  match selectFilter p values self.list with
  | .error e => .error e
  | .ok kept => .ok (pyInit (some kept))

/-- `QGraphList.exclude`: dual of `select`. -/
def exclude (self : QGraphList) (p : String) (values : List PyVal) :
    Except PyErr QGraphList :=
  match excludeFilter p values self.list with
  | .error e => .error e
  | .ok kept => .ok (pyInit (some kept))

/-- `df1.append(df2)` of pandas for the frames arising here (always the
same seven columns): the rows of both, `df1`'s rows first. -/
def dfAppend (d1 d2 : DataFrame) : DataFrame :=
  ⟨d1.columns, d1.rows ++ d2.rows⟩

/-- The cached table of the collection `__add__` returns: the row-wise
concatenation when both operands have one (`if self.dataframe_ is not
None and other.dataframe_ is not None`), otherwise the fresh `None`. -/
def mergedDf (d1 d2 : Option DataFrame) : Option DataFrame :=
  match d1, d2 with
  | some x, some y => some (dfAppend x y)
  | _, _ => none

/-- The right operand of `+`.  Python is duck-typed: besides a genuine
`QGraphList` the operand can be any object, of which `__add__` only
reads `.list` (and `.dataframe_` when `self.dataframe_` is not `None`);
`duck la` is an arbitrary non-`QGraphList` object whose `list`
attribute, if present, holds a list of graphs, and which has no
`dataframe_` attribute. -/
inductive AddOperand where
  | qgl (g : QGraphList)
  | duck (listAttr : Option (List QGraph))
deriving Repr

/-- `QGraphList.__add__`: inside a bare `try`, concatenate the two
`list`s into a fresh `QGraphList`; when both operands have a cached
dataframe, the new object gets their row-wise concatenation.  Any
exception inside the `try` (an `AttributeError` from a missing `list`
or `dataframe_`, or a `TypeError` from a non-list `list`) is caught and
re-raised as `TypeError`. -/
def addOp (self : QGraphList) (other : AddOperand) :
    Except PyErr QGraphList :=
  match other with
  | .qgl g =>
      .ok { pyInit (some (self.list ++ g.list)) with
              dataframe_ := mergedDf self.dataframe_ g.dataframe_ }
  | .duck la =>
      match la with
      | none => .error .typeError
      | some l =>
          match self.dataframe_ with
          | none => .ok (pyInit (some (self.list ++ l)))
          | some _ => .error .typeError

/-- Modelled from the spec: `merge(other)` returns a NEW collection
whose sequence is the concatenation of this collection's and `other`'s
sequences, this collection's elements first.  (The source exposes the
operation only as `__add__`; this definition follows the spec's words,
for comparison with `addOp`.) -/
def specMerge (a b : QGraphList) : QGraphList :=
  pyInit (some (a.list ++ b.list))

/-- How the drain loop `for G in iterator` ends: the iterator is
exhausted, a `KeyboardInterrupt` arrives, or a task raises some other
exception. -/
inductive IterEnd where
  | done
  | interrupt
  | failure (e : PyErr)
deriving DecidableEq, Repr

/-- The outcome of `grow_random_graphs`: the final collection state,
the exception propagated to the caller (if any), and whether the
graceful-stop notice was printed. -/
structure GrowResult where
  state : QGraphList
  raised : Option PyErr
  notice : Bool
deriving Repr

/-- `QGraphList.grow_random_graphs`'s drain loop: the parallel iterator
is modelled by the graphs it yields, in completion order, before the
loop ends (`yielded`) and by how it ends (`ending`).  Each yielded
graph is appended as it arrives; `except KeyboardInterrupt` prints the
notice and returns normally, while any other exception propagates. -/
def grow_random_graphs (self : QGraphList) (yielded : List QGraph)
    (ending : IterEnd) : GrowResult :=
  let st := yielded.foldl append self
  match ending with
  | .done => ⟨st, none, false⟩
  | .interrupt => ⟨st, none, true⟩
  | .failure e => ⟨st, some e, false⟩

namespace RefModel

/-!
A store-passing model of the same class, for the claims about aliasing
of the underlying Python list object.  The heap is a list of list
objects; a reference is an index into it; a collection holds the
reference of its `list` attribute.  Allocation appends to the heap.
-/

/-- The heap of list objects. -/
abbrev Heap := List (List QGraph)

/-- A `QGraphList` instance whose `list` attribute is a reference. -/
structure RQGraphList where
  listRef : Nat
  dataframe_ : Option DataFrame
  filename : Option String
deriving DecidableEq, Repr

/-- Allocate a fresh list object. -/
def alloc (h : Heap) (v : List QGraph) : Nat × Heap :=
  (h.length, h ++ [v])

/-- Read a list object. -/
def readRef (h : Heap) (r : Nat) : List QGraph :=
  h.getD r []

/-- `__init__` with an optional caller-supplied list object:
`self.list = lst or []` keeps the caller's object itself when it is a
non-empty list and allocates a fresh empty list otherwise. -/
def rinit (h : Heap) (lst : Option Nat) : RQGraphList × Heap :=
  match lst with
  | none =>
      let (r, h') := alloc h []
      (⟨r, none, none⟩, h')
  | some r =>
      if (readRef h r).isEmpty then
        let (r', h') := alloc h []
        (⟨r', none, none⟩, h')
      else (⟨r, none, none⟩, h)

/-- `append`: `self.list.append(G)` mutates the referenced object in
place; `self.dataframe_ = None`. -/
def rappend (h : Heap) (self : RQGraphList) (G : QGraph) :
    RQGraphList × Heap :=
  ({ self with dataframe_ := none },
   h.set self.listRef (readRef h self.listRef ++ [G]))

/-- `__len__`: `len(self.list)`. -/
def rlen (h : Heap) (self : RQGraphList) : Nat :=
  (readRef h self.listRef).length

/-- `__getitem__`: `self.list[index]` (`none` is the `IndexError`). -/
def rgetitem (h : Heap) (self : RQGraphList) (i : Nat) : Option QGraph :=
  (readRef h self.listRef).get? i

/-- `__add__` on two genuine collections: `self.list + other.list`
allocates a fresh list object, which the new `QGraphList` adopts (or,
when it is empty, `lst or []` allocates yet another fresh empty one);
the operands' objects are not touched. -/
def radd (h : Heap) (a b : RQGraphList) : RQGraphList × Heap :=
  let merged := readRef h a.listRef ++ readRef h b.listRef
  let (m, h1) := alloc h merged
  let (gl, h2) := rinit h1 (some m)
  ({ gl with dataframe_ := mergedDf a.dataframe_ b.dataframe_ }, h2)

end RefModel

/-! ### Concrete instances used by witnesses and counterexamples -/

/-- A graph with one walker. -/
def gA : QGraph :=
  ⟨1, mkRat 1 10, 10, 3, mkRat 1 2, [(1, 4), (2, 6)], mkRat 2 5⟩

/-- A graph with two walkers. -/
def gB : QGraph :=
  ⟨2, mkRat 1 2, 5, 2, mkRat 1 3, [(1, 2)], mkRat 1 5⟩

/-- A graph with nine walkers, outside the keys of the word table. -/
def gNine : QGraph :=
  ⟨9, mkRat 1 10, 7, 2, mkRat 1 3, [], mkRat 1 5⟩

/-- The dataframe row the comprehension produces for a graph whose
walker count is a key of the table (the crash-free case of `rowOf`). -/
def rowCells (nums : List (Int × String)) (G : QGraph) : List PyVal :=
  [.ratV G.exploration, .strV ((nums.lookup G.walkers).getD ""),
   .intV G.nodes, .intV G.diameter, .ratV G.clustering_coefficient,
   .distV G.degree_distribution, .ratV G.leaf_fraction]

/-- The summary table of the singleton collection `[gA]`. -/
def dfA : DataFrame := ⟨columns7, [rowCells numbersTable gA]⟩

/-! ### Helper lemmas -/

theorem rowOf_eq_ok {nums : List (Int × String)} {G : QGraph}
    (h : (nums.lookup G.walkers).isSome) :
    rowOf nums G = .ok (rowCells nums G) := by
  unfold rowOf rowCells
  cases hw : nums.lookup G.walkers with
  | none => rw [hw] at h; simp at h
  | some w => simp [hw]

theorem buildRows_eq_map {nums : List (Int × String)} {l : List QGraph}
    (h : ∀ G ∈ l, (nums.lookup G.walkers).isSome) :
    buildRows nums l = .ok (l.map (rowCells nums)) := by
  induction l with
  | nil => rfl
  | cons G rest ih =>
      have hG : (nums.lookup G.walkers).isSome := h G (by simp)
      have hrest := ih fun x hx => h x (by simp [hx])
      simp [buildRows, rowOf_eq_ok hG, hrest]

theorem buildRows_keyError {nums : List (Int × String)} {l : List QGraph}
    (h : ∃ G ∈ l, nums.lookup G.walkers = none) :
    buildRows nums l = .error .keyError := by
  induction l with
  | nil => simp at h
  | cons G rest ih =>
      rcases h with ⟨H, hH, hnone⟩
      rcases List.mem_cons.mp hH with rfl | hmem
      · simp [buildRows, rowOf, hnone]
      · unfold buildRows
        cases hr : rowOf nums G with
        | error e =>
            unfold rowOf at hr
            cases hw : nums.lookup G.walkers with
            | none => rw [hw] at hr; simp at hr; simp [hr]
            | some w => rw [hw] at hr; simp at hr
        | ok r => rw [ih ⟨H, hmem, hnone⟩]

/-- The keys of the word table are exactly the integers 1 through 8. -/
theorem numbersTable_keys (w : Int) :
    (numbersTable.lookup w).isSome ↔ 1 ≤ w ∧ w ≤ 8 := by
  by_cases h : 1 ≤ w ∧ w ≤ 8
  · obtain ⟨h1, h2⟩ := h
    have hs : (numbersTable.lookup w).isSome := by
      interval_cases w <;> decide
    simp [hs, h1, h2]
  · have h1 : (w == (1 : Int)) = false := by simp; omega
    have h2 : (w == (2 : Int)) = false := by simp; omega
    have h3 : (w == (3 : Int)) = false := by simp; omega
    have h4 : (w == (4 : Int)) = false := by simp; omega
    have h5 : (w == (5 : Int)) = false := by simp; omega
    have h6 : (w == (6 : Int)) = false := by simp; omega
    have h7 : (w == (7 : Int)) = false := by simp; omega
    have h8 : (w == (8 : Int)) = false := by simp; omega
    constructor
    · intro hs
      simp only [numbersTable, List.lookup, h1, h2, h3, h4, h5, h6, h7, h8,
        if_false] at hs
      simp at hs
    · intro hw
      exact absurd hw h

theorem endsNpy_data_not_isEmpty {f : String} (hE : EndsNpy f) :
    f.data.isEmpty = false := by
  rcases hE with ⟨t, ht⟩
  rw [ht]
  cases t <;> simp [npyChars]

theorem set_filename_self {st : QGraphList} {f : String}
    (h : st.filename = some f) : { st with filename := some f } = st := by
  cases st
  simp_all

theorem dataframeTail_unbound {df : DataFrame} {st : QGraphList} {fs : FS}
    (h : st.filename = none) :
    dataframe.dataframeTail df st fs = (none, some df, st, fs) := by
  unfold dataframe.dataframeTail
  rw [h]

theorem dataframeTail_bound {df : DataFrame} {st : QGraphList} {fs : FS}
    {f : String} (h : st.filename = some f) (hE : EndsNpy f) :
    dataframe.dataframeTail df st fs = (none, some df, st, fsSet fs f st.list) := by
  unfold dataframe.dataframeTail
  rw [h]
  simp only [endsNpy_data_not_isEmpty hE, Bool.false_eq_true, if_false,
    save, (pyTail4_eq_iff_endsNpy f).mpr hE, if_true, set_filename_self h]

theorem dataframe_warm {self : QGraphList} {fs : FS} {df : DataFrame}
    (h : self.dataframe_ = some df) :
    dataframe self fs = dataframe.dataframeTail df self fs := by
  unfold dataframe
  rw [h]

theorem dataframe_cold {self : QGraphList} {fs : FS}
    (h : self.dataframe_ = none)
    (hb : ∀ G ∈ self.list, (self.numbers.lookup G.walkers).isSome) :
    dataframe self fs =
      dataframe.dataframeTail ⟨columns7, self.list.map (rowCells self.numbers)⟩
        { self with
            dataframe_ := some ⟨columns7, self.list.map (rowCells self.numbers)⟩ }
        fs := by
  unfold dataframe
  rw [h, buildRows_eq_map hb]

/-- C1, claim as stated, refuted: a collection holding a unit with nine
walkers makes the summary computation raise a `KeyError` — there is no
raw-integer fallback for walker counts outside 1..8, and the
computation does not succeed. -/
theorem C1_counterexample :
    gNine.walkers = 9 ∧
    (dataframe (pyInit (some [gNine])) []).1 = some PyErr.keyError ∧
    (dataframe (pyInit (some [gNine])) []).2.1 = none := by
  decide

/-- C1, amended: when every unit's walker count lies in 1..8 (the keys
of the word table), computing the summary succeeds and yields exactly
the seven named columns with one row per unit in sequence order, the
walkers cell being the word of the table; a walker count outside 1..8
instead raises a `KeyError` (no fallback). -/
theorem C1_summary_table (l : List QGraph) (fs : FS)
    (h : ∀ G ∈ l, 1 ≤ G.walkers ∧ G.walkers ≤ 8) :
    dataframe (pyInit (some l)) fs =
      (none, some ⟨columns7, l.map (rowCells numbersTable)⟩,
       { pyInit (some l) with
           dataframe_ := some ⟨columns7, l.map (rowCells numbersTable)⟩ }, fs)
  ∧ columns7.length = 7
  ∧ (l.map (rowCells numbersTable)).length = l.length
  ∧ (∀ G ∈ l, ∃ w, numbersTable.lookup G.walkers = some w ∧
      rowCells numbersTable G =
        [.ratV G.exploration, .strV w, .intV G.nodes, .intV G.diameter,
         .ratV G.clustering_coefficient, .distV G.degree_distribution,
         .ratV G.leaf_fraction]) := by
  have hb : ∀ G ∈ (pyInit (some l)).list,
      ((pyInit (some l)).numbers.lookup G.walkers).isSome := by
    intro G hG
    exact (numbersTable_keys G.walkers).mpr (h G hG)
  refine ⟨?_, rfl, by simp, ?_⟩
  · rw [dataframe_cold rfl hb, dataframeTail_unbound rfl]
    simp [pyInit]
  · intro G hG
    have hs := (numbersTable_keys G.walkers).mpr (h G hG)
    cases hw : numbersTable.lookup G.walkers with
    | none => rw [hw] at hs; simp at hs
    | some w => exact ⟨w, rfl, by simp [rowCells, hw]⟩

/-- C1, witness: the amended theorem applied to the concrete
two-element collection `[gA, gB]`. -/
theorem C1_witness :
    dataframe (pyInit (some [gA, gB])) [] =
      (none, some ⟨columns7, [gA, gB].map (rowCells numbersTable)⟩,
       { pyInit (some [gA, gB]) with
           dataframe_ := some ⟨columns7, [gA, gB].map (rowCells numbersTable)⟩ },
       [])
  ∧ columns7.length = 7
  ∧ ([gA, gB].map (rowCells numbersTable)).length = [gA, gB].length
  ∧ (∀ G ∈ [gA, gB], ∃ w, numbersTable.lookup G.walkers = some w ∧
      rowCells numbersTable G =
        [.ratV G.exploration, .strV w, .intV G.nodes, .intV G.diameter,
         .ratV G.clustering_coefficient, .distV G.degree_distribution,
         .ratV G.leaf_fraction]) :=
  C1_summary_table [gA, gB] [] (by decide)

/-- A collection of `[gA]` whose summary table is already memoized. -/
def cSelf2 : QGraphList :=
  { list := [gA], dataframe_ := some dfA, numbers := numbersTable,
    filename := none }

/-- A file system where `f.npy` holds the sequence `[gB]`. -/
def cFs2 : FS := [("f.npy", [gB])]

/-- C2, claim as stated, refuted: `cSelf2` holds `[gA]` with its table
memoized; loading `f.npy` replaces the sequence with `[gB]`, yet the
next summary read still returns the table computed for `[gA]`, which is
not the table of `[gB]` — the memoized table survives the load instead
of being keyed by the current sequence. -/
theorem C2_counterexample :
    ((load cSelf2 cFs2 "f.npy").2.1).list = [gB]
  ∧ (dataframe (load cSelf2 cFs2 "f.npy").2.1 cFs2).2.1 = some dfA
  ∧ dfA ≠ ⟨columns7, [rowCells numbersTable gB]⟩ := by
  decide

/-- C2, amended: `load(path)` wholly replaces the in-memory sequence
with the one deserialized from `path` and binds the filename (no
merging); but it leaves the memoized table untouched, so a cache
computed before the load is still returned by summary reads after
it. -/
theorem C2_load_replaces (self : QGraphList) (fs : FS) (path : String)
    (l : List QGraph) (hE : EndsNpy path) (hfs : fsLookup fs path = some l) :
    load self fs path = (none, { self with list := l, filename := some path }, fs)
  ∧ ({ self with list := l, filename := some path } : QGraphList).dataframe_
      = self.dataframe_
  ∧ ∀ df, self.dataframe_ = some df →
      (dataframe { self with list := l, filename := some path } fs).2.1
        = some df := by
  refine ⟨?_, rfl, ?_⟩
  · unfold load
    rw [if_pos ((pyTail4_eq_iff_endsNpy path).mpr hE)]
    rw [show fsLookup fs path = some l from hfs]
  · intro df hdf
    have hw : ({ self with list := l, filename := some path } :
        QGraphList).dataframe_ = some df := hdf
    rw [dataframe_warm hw, dataframeTail_bound rfl hE]

/-- C2, witness: the amended theorem applied to `cSelf2`, `cFs2` and
the path `f.npy`. -/
theorem C2_witness :
    load cSelf2 cFs2 "f.npy" =
      (none, { cSelf2 with list := [gB], filename := some "f.npy" }, cFs2)
  ∧ ({ cSelf2 with list := [gB], filename := some "f.npy" } :
      QGraphList).dataframe_ = cSelf2.dataframe_
  ∧ (∀ df, cSelf2.dataframe_ = some df →
      (dataframe { cSelf2 with list := [gB], filename := some "f.npy" }
          cFs2).2.1 = some df) :=
  C2_load_replaces cSelf2 cFs2 "f.npy" [gB] (by decide) (by decide)

/-- Whether the comprehension guard `getattr(G, p) in values` holds. -/
def selKeep (p : String) (values : List PyVal) (G : QGraph) : Bool :=
  match getattrOpt G p with
  | some v => values.contains v
  | none => false

theorem getattrOpt_isSome {G : QGraph} {p : String} (h : p ∈ attrNames) :
    (getattrOpt G p).isSome := by
  simp only [attrNames, List.mem_cons, List.not_mem_nil, or_false] at h
  rcases h with rfl | rfl | rfl | rfl | rfl | rfl | rfl <;> rfl

theorem selectFilter_eq_filter (p : String) (values : List PyVal)
    (hp : ∀ G : QGraph, (getattrOpt G p).isSome) (l : List QGraph) :
    selectFilter p values l = .ok (l.filter (selKeep p values)) := by
  induction l with
  | nil => rfl
  | cons G rest ih =>
      cases hv : getattrOpt G p with
      | none => have h := hp G; rw [hv] at h; simp at h
      | some v =>
          simp only [selectFilter, hv, ih, List.filter_cons]
          by_cases hc : values.contains v

          · simp [selKeep, hv, hc]
          · simp [selKeep, hv, hc]

theorem excludeFilter_eq_filter (p : String) (values : List PyVal)
    (hp : ∀ G : QGraph, (getattrOpt G p).isSome) (l : List QGraph) :
    excludeFilter p values l = .ok (l.filter (fun G => ! selKeep p values G)) := by
  induction l with
  | nil => rfl
  | cons G rest ih =>
      cases hv : getattrOpt G p with
      | none => have h := hp G; rw [hv] at h; simp at h
      | some v =>
          simp only [excludeFilter, hv, ih, List.filter_cons]
          by_cases hc : values.contains v
          · simp [selKeep, hv, hc]
          · simp [selKeep, hv, hc]

/-- C3, confirmed: for a property name the units expose, `select` and
`exclude` with the same value set both succeed and partition the
original collection — every element lands in exactly one of the two
results and the sizes add up. -/
theorem C3_partition (self : QGraphList) (p : String) (values : List PyVal)
    (hp : p ∈ attrNames) :
    ∃ sl el, select self p values = .ok sl ∧ exclude self p values = .ok el
      ∧ sl.list.length + el.list.length = self.list.length
      ∧ (∀ g ∈ self.list,
          (g ∈ sl.list ∧ g ∉ el.list) ∨ (g ∉ sl.list ∧ g ∈ el.list))
      ∧ (∀ g ∈ sl.list, g ∈ self.list)
      ∧ (∀ g ∈ el.list, g ∈ self.list) := by
  have hps : ∀ G : QGraph, (getattrOpt G p).isSome :=
    fun G => getattrOpt_isSome hp
  refine ⟨pyInit (some (self.list.filter (selKeep p values))),
          pyInit (some (self.list.filter (fun G => ! selKeep p values G))),
          ?_, ?_, ?_, ?_, ?_, ?_⟩
  · simp [select, selectFilter_eq_filter p values hps]
  · simp [exclude, excludeFilter_eq_filter p values hps]
  · simpa [pyInit] using
      (List.length_eq_length_filter_add (l := self.list) (selKeep p values)).symm
  · intro g hg
    by_cases hk : selKeep p values g
    · refine .inl ⟨List.mem_filter.mpr ⟨hg, hk⟩, fun hmem => ?_⟩
      have := (List.mem_filter.mp hmem).2
      simp [hk] at this
    · refine .inr ⟨fun hmem => ?_, List.mem_filter.mpr ⟨hg, by simp [hk]⟩⟩
      exact hk (List.mem_filter.mp hmem).2
  · exact fun g hg => (List.mem_filter.mp hg).1
  · exact fun g hg => (List.mem_filter.mp hg).1

/-- C3, witness: the partition theorem applied to the concrete
collection `[gA, gB]`, the property `nodes` and the value set `{5}`. -/
theorem C3_witness :
    ∃ sl el, select (pyInit (some [gA, gB])) "nodes" [.intV 5] = .ok sl
      ∧ exclude (pyInit (some [gA, gB])) "nodes" [.intV 5] = .ok el
      ∧ sl.list.length + el.list.length = (pyInit (some [gA, gB])).list.length
      ∧ (∀ g ∈ (pyInit (some [gA, gB])).list,
          (g ∈ sl.list ∧ g ∉ el.list) ∨ (g ∉ sl.list ∧ g ∈ el.list))
      ∧ (∀ g ∈ sl.list, g ∈ (pyInit (some [gA, gB])).list)
      ∧ (∀ g ∈ el.list, g ∈ (pyInit (some [gA, gB])).list) :=
  C3_partition (pyInit (some [gA, gB])) "nodes" [.intV 5] (by decide)

theorem dataframeTail_inv {d : DataFrame} {st : QGraphList} {fs : FS}
    {df : DataFrame} {s1 : QGraphList} {fs1 : FS}
    (h : dataframe.dataframeTail d st fs = (none, some df, s1, fs1)) :
    df = d ∧ s1 = st ∧
    (∀ f, st.filename = some f → f.data.isEmpty = false →
      pyTail4 f = npyChars) := by
  unfold dataframe.dataframeTail at h
  split at h
  next hf =>
    simp only [Prod.mk.injEq] at h
    obtain ⟨-, hdf, hs, -⟩ := h
    exact ⟨(Option.some.inj hdf).symm, hs.symm,
      fun f hf2 => by rw [hf] at hf2; cases hf2⟩
  next f hf =>
    split at h
    next he =>
      simp only [Prod.mk.injEq] at h
      obtain ⟨-, hdf, hs, -⟩ := h
      refine ⟨(Option.some.inj hdf).symm, hs.symm, fun f' hf2 hne => ?_⟩
      rw [hf] at hf2
      cases hf2
      rw [he] at hne
      cases hne
    next he =>
      split at h
      next e st' fs' heq => simp at h
      next st' fs' heq =>
        unfold save at heq
        split at heq
        next hTail =>
          simp only [Prod.mk.injEq] at heq h
          obtain ⟨-, hst, -⟩ := heq
          obtain ⟨-, hdf, hs, -⟩ := h
          refine ⟨(Option.some.inj hdf).symm, ?_, fun f' hf2 _ => ?_⟩
          · rw [← hs, ← hst, set_filename_self hf]
          · rw [hf] at hf2
            cases hf2
            exact hTail
        next hTail => simp at heq

theorem dataframeTail_ok_self (d : DataFrame) (st : QGraphList) (fs : FS)
    (hgood : ∀ f, st.filename = some f → f.data.isEmpty = false →
      pyTail4 f = npyChars) :
    ∃ fs2, dataframe.dataframeTail d st fs = (none, some d, st, fs2) := by
  unfold dataframe.dataframeTail
  cases hf : st.filename with
  | none => exact ⟨fs, rfl⟩
  | some f =>
      by_cases he : f.data.isEmpty
      · exact ⟨fs, by simp [he]⟩
      · have hTail := hgood f hf (by simpa using he)
        refine ⟨fsSet fs f st.list, ?_⟩
        simp only [show f.data.isEmpty = false by simpa using he,
          Bool.false_eq_true, if_false, save, if_pos hTail,
          set_filename_self hf]

theorem dataframe_ok_inv {self : QGraphList} {fs : FS} {df : DataFrame}
    {s1 : QGraphList} {fs1 : FS}
    (h : dataframe self fs = (none, some df, s1, fs1)) :
    s1.dataframe_ = some df ∧ s1.list = self.list
    ∧ s1.filename = self.filename
    ∧ (∀ f, s1.filename = some f → f.data.isEmpty = false →
        pyTail4 f = npyChars) := by
  unfold dataframe at h
  split at h
  next d hd =>
    obtain ⟨hdf, hs, hgood⟩ := dataframeTail_inv h
    refine ⟨by rw [hs, hd, hdf], by rw [hs], by rw [hs],
      fun f hf => by rw [hs] at hf; exact hgood f hf⟩
  next hd =>
    split at h
    next e heq => simp at h
    next rows heq =>
      obtain ⟨hdf, hs, hgood⟩ := dataframeTail_inv h
      refine ⟨by rw [hs, hdf], by rw [hs], by rw [hs],
        fun f hf => by rw [hs] at hf; exact hgood f hf⟩

/-- C4, confirmed: if a summary read returns a table (without raising),
the post-state holds that table memoized with the sequence unchanged,
and a second read with no intervening mutation returns the identical
table from the cache — the same post-state, so the cached value is
returned without recomputation — and leaves the sequence unchanged. -/
theorem C4_summary_idempotent (self : QGraphList) (fs : FS) (df : DataFrame)
    (s1 : QGraphList) (fs1 : FS)
    (h : dataframe self fs = (none, some df, s1, fs1)) :
    s1.dataframe_ = some df
  ∧ s1.list = self.list
  ∧ ∃ fs2, dataframe s1 fs1 = (none, some df, s1, fs2) := by
  obtain ⟨hdf, hlist, hfn, hgood⟩ := dataframe_ok_inv h
  refine ⟨hdf, hlist, ?_⟩
  rw [dataframe_warm hdf]
  exact dataframeTail_ok_self df s1 fs1 hgood

/-- C4, witness: the idempotence theorem applied to the singleton
collection `[gA]` with an empty file system. -/
theorem C4_witness :
    cSelf2.dataframe_ = some dfA
  ∧ cSelf2.list = (pyInit (some [gA])).list
  ∧ ∃ fs2, dataframe cSelf2 [] = (none, some dfA, cSelf2, fs2) :=
  C4_summary_idempotent (pyInit (some [gA])) [] dfA cSelf2 [] (by decide)

namespace RefModel

theorem readRef_append_lt {h : Heap} {r : Nat} (t : Heap)
    (hr : r < h.length) : readRef (h ++ t) r = readRef h r := by
  unfold readRef
  exact List.getD_append h t [] r hr

theorem readRef_concat_length (h : Heap) (v : List QGraph) :
    readRef (h ++ [v]) h.length = v := by
  unfold readRef
  simp [List.getD_eq_getElem?_getD]

theorem readRef_set_self {h : Heap} {r : Nat} (v : List QGraph)
    (hr : r < h.length) : readRef (h.set r v) r = v := by
  unfold readRef
  simp [List.getD_eq_getElem?_getD, List.getElem?_set_self, hr]

/-- C5, confirmed: `__add__` on two collections backed by valid list
objects yields a collection over a freshly allocated list holding A's
elements followed by B's, its length the sum of the two lengths, while
the list objects of both operands are unchanged (and distinct from the
new one). -/
theorem C5_merge (h : Heap) (a b : RQGraphList)
    (ha : a.listRef < h.length) (hb : b.listRef < h.length) :
    readRef (radd h a b).2 (radd h a b).1.listRef
      = readRef h a.listRef ++ readRef h b.listRef
  ∧ rlen (radd h a b).2 (radd h a b).1 = rlen h a + rlen h b
  ∧ readRef (radd h a b).2 a.listRef = readRef h a.listRef
  ∧ readRef (radd h a b).2 b.listRef = readRef h b.listRef
  ∧ (radd h a b).1.listRef ≠ a.listRef
  ∧ (radd h a b).1.listRef ≠ b.listRef := by
  have hcat :=
    readRef_concat_length h (readRef h a.listRef ++ readRef h b.listRef)
  by_cases hm : (readRef h a.listRef ++ readRef h b.listRef).isEmpty
  · have hmerge : readRef h a.listRef ++ readRef h b.listRef = [] :=
      List.isEmpty_iff.mp hm
    have hra : readRef h a.listRef = [] := (List.append_eq_nil.mp hmerge).1
    have hrb : readRef h b.listRef = [] := (List.append_eq_nil.mp hmerge).2
    have hradd : radd h a b =
        (⟨(h ++ [[]]).length, mergedDf a.dataframe_ b.dataframe_, none⟩,
         (h ++ [[]]) ++ [[]]) := by
      simp only [radd, alloc, rinit, hmerge, readRef_concat_length,
        List.isEmpty_nil, if_true]
    rw [hradd]
    refine ⟨?_, ?_, ?_, ?_, ?_, ?_⟩
    · rw [hmerge]
      exact readRef_concat_length _ _
    · unfold rlen
      rw [readRef_concat_length, hra, hrb]
      simp
    · rw [List.append_assoc]
      exact readRef_append_lt _ ha
    · rw [List.append_assoc]
      exact readRef_append_lt _ hb
    · show (h ++ [[]]).length ≠ a.listRef
      simp only [List.length_append, List.length_cons, List.length_nil]
      omega
    · show (h ++ [[]]).length ≠ b.listRef
      simp only [List.length_append, List.length_cons, List.length_nil]
      omega
  · have hmf : (readRef h a.listRef ++ readRef h b.listRef).isEmpty = false := by
      simpa using hm
    have hradd : radd h a b =
        (⟨h.length, mergedDf a.dataframe_ b.dataframe_, none⟩,
         h ++ [readRef h a.listRef ++ readRef h b.listRef]) := by
      simp only [radd, alloc, rinit, hcat, hmf, Bool.false_eq_true, if_false]
    rw [hradd]
    refine ⟨?_, ?_, ?_, ?_, ?_, ?_⟩
    · exact hcat
    · unfold rlen
      rw [hcat, List.length_append]
    · exact readRef_append_lt _ ha
    · exact readRef_append_lt _ hb
    · show h.length ≠ a.listRef
      omega
    · show h.length ≠ b.listRef
      omega

/-- C5, witness: the merge theorem applied to a concrete heap holding
the two singleton collections `[gA]` and `[gB]`. -/
theorem C5_witness :
    readRef (radd [[gA], [gB]] ⟨0, none, none⟩ ⟨1, none, none⟩).2
        (radd [[gA], [gB]] ⟨0, none, none⟩ ⟨1, none, none⟩).1.listRef
      = readRef [[gA], [gB]] 0 ++ readRef [[gA], [gB]] 1
  ∧ rlen (radd [[gA], [gB]] ⟨0, none, none⟩ ⟨1, none, none⟩).2
        (radd [[gA], [gB]] ⟨0, none, none⟩ ⟨1, none, none⟩).1
      = rlen [[gA], [gB]] ⟨0, none, none⟩ + rlen [[gA], [gB]] ⟨1, none, none⟩
  ∧ readRef (radd [[gA], [gB]] ⟨0, none, none⟩ ⟨1, none, none⟩).2 0
      = readRef [[gA], [gB]] 0
  ∧ readRef (radd [[gA], [gB]] ⟨0, none, none⟩ ⟨1, none, none⟩).2 1
      = readRef [[gA], [gB]] 1
  ∧ (radd [[gA], [gB]] ⟨0, none, none⟩ ⟨1, none, none⟩).1.listRef ≠ 0
  ∧ (radd [[gA], [gB]] ⟨0, none, none⟩ ⟨1, none, none⟩).1.listRef ≠ 1 :=
  C5_merge [[gA], [gB]] ⟨0, none, none⟩ ⟨1, none, none⟩
    (by decide) (by decide)

/-- C10, confirmed: constructing a collection from a non-empty list
object stores that object itself (same reference, heap untouched);
`append` on the collection writes through to the caller's object, and
an external overwrite of the object is visible through the collection's
length and indexing. -/
theorem C10_list_aliasing (h : Heap) (L : List QGraph) (r : Nat) (G : QGraph)
    (hr : r < h.length) (hL : readRef h r = L) (hne : L ≠ []) :
    (rinit h (some r)).1.listRef = r
  ∧ (rinit h (some r)).2 = h
  ∧ readRef (rappend h (rinit h (some r)).1 G).2 r = L ++ [G]
  ∧ (∀ L', rlen (h.set r L') (rinit h (some r)).1 = L'.length)
  ∧ (∀ L' i, rgetitem (h.set r L') (rinit h (some r)).1 i = L'.get? i) := by
  have hLe : L.isEmpty = false := by
    cases L with
    | nil => exact absurd rfl hne
    | cons a t => rfl
  have hkey : rinit h (some r) = (⟨r, none, none⟩, h) := by
    simp only [rinit, hL, hLe, Bool.false_eq_true, if_false]
  rw [hkey]
  refine ⟨rfl, rfl, ?_, ?_, ?_⟩
  · unfold rappend
    simp only [hL]
    exact readRef_set_self (L ++ [G]) hr
  · intro L'
    unfold rlen
    rw [readRef_set_self L' hr]
  · intro L' i
    unfold rgetitem
    rw [readRef_set_self L' hr]

/-- C10, witness: the aliasing theorem applied to a heap holding the
caller's one-element list `[gA]`, appending `gB`. -/
theorem C10_witness :
    (rinit [[gA]] (some 0)).1.listRef = 0
  ∧ (rinit [[gA]] (some 0)).2 = [[gA]]
  ∧ readRef (rappend [[gA]] (rinit [[gA]] (some 0)).1 gB).2 0 = [gA] ++ [gB]
  ∧ (∀ L', rlen ([[gA]].set 0 L') (rinit [[gA]] (some 0)).1 = L'.length)
  ∧ (∀ L' i, rgetitem ([[gA]].set 0 L') (rinit [[gA]] (some 0)).1 i
      = L'.get? i) :=
  C10_list_aliasing [[gA]] [gA] 0 gB (by decide) (by decide) (by decide)

end RefModel

/-- C6, confirmed: `save` raises `ValueError` exactly when the path
does not end with `.npy`; on that failure the sequence, the bound
filename, the cached summary and the file system are all untouched; on
a valid path it binds the filename and persists the full ordered
sequence under the path; and `load` applies the same extension
validation. -/
theorem C6_save_validation (self : QGraphList) (fs : FS) (path : String) :
    ((save self fs path).1 = some PyErr.valueError ↔ ¬ EndsNpy path)
  ∧ (¬ EndsNpy path → save self fs path = (some PyErr.valueError, self, fs))
  ∧ (EndsNpy path →
      save self fs path =
        (none, { self with filename := some path }, fsSet fs path self.list)
      ∧ fsLookup (fsSet fs path self.list) path = some self.list)
  ∧ ((load self fs path).1 = some PyErr.valueError ↔ ¬ EndsNpy path) := by
  by_cases hE : EndsNpy path
  · have ht := (pyTail4_eq_iff_endsNpy path).mpr hE
    refine ⟨?_, fun h => absurd hE h, fun _ => ⟨?_, ?_⟩, ?_⟩
    · unfold save
      rw [if_pos ht]
      simp [hE]
    · unfold save
      rw [if_pos ht]
    · simp [fsLookup, fsSet, List.lookup]
    · unfold load
      rw [if_pos ht]
      cases hl : fsLookup fs path with
      | some l => simp [hE]
      | none => simp [hE]
  · have ht : ¬ pyTail4 path = npyChars :=
      fun hc => hE ((pyTail4_eq_iff_endsNpy path).mp hc)
    refine ⟨?_, fun _ => ?_, fun h => absurd h hE, ?_⟩
    · unfold save
      rw [if_neg ht]
      simp [hE]
    · unfold save
      rw [if_neg ht]
    · unfold load
      rw [if_neg ht]
      simp [hE]

/-- C6, witness: the validation theorem applied to the singleton
collection `[gA]` and the valid path `f.npy`. -/
theorem C6_witness :
    save (pyInit (some [gA])) [] "f.npy" =
      (none, { pyInit (some [gA]) with filename := some "f.npy" },
       fsSet [] "f.npy" (pyInit (some [gA])).list)
  ∧ fsLookup (fsSet [] "f.npy" (pyInit (some [gA])).list) "f.npy"
      = some (pyInit (some [gA])).list :=
  (C6_save_validation (pyInit (some [gA])) [] "f.npy").2.2.1 (by decide)

theorem dataframe_cold_err {self : QGraphList} {fs : FS} {e : PyErr}
    (hd : self.dataframe_ = none)
    (hb : buildRows self.numbers self.list = .error e) :
    dataframe self fs = (some e, none, self, fs) := by
  unfold dataframe
  rw [hd, hb]

theorem dataframe_cold_rows {self : QGraphList} {fs : FS}
    {rows : List (List PyVal)} (hd : self.dataframe_ = none)
    (hb : buildRows self.numbers self.list = .ok rows) :
    dataframe self fs =
      dataframe.dataframeTail ⟨columns7, rows⟩
        { self with dataframe_ := some ⟨columns7, rows⟩ } fs := by
  unfold dataframe
  rw [hd, hb]

/-- C7, confirmed: when a (necessarily `.npy`-valid) filename is bound,
every summary read that returns re-persists the collection's sequence
to that same file before returning; when no filename is bound, a
summary read never writes to the file system. -/
theorem C7_summary_resave (self : QGraphList) (fs : FS) :
    (∀ f, self.filename = some f → EndsNpy f →
      (dataframe self fs).1 = none →
        (dataframe self fs).2.2.2 = fsSet fs f self.list
      ∧ fsLookup (fsSet fs f self.list) f = some self.list)
  ∧ (self.filename = none → (dataframe self fs).2.2.2 = fs) := by
  constructor
  · intro f hf hE hok
    cases hd : self.dataframe_ with
    | some d =>
        rw [dataframe_warm hd, dataframeTail_bound hf hE]
        exact ⟨rfl, by simp [fsLookup, fsSet, List.lookup]⟩
    | none =>
        cases hb : buildRows self.numbers self.list with
        | error e =>
            rw [dataframe_cold_err hd hb] at hok
            simp at hok
        | ok rows =>
            rw [dataframe_cold_rows hd hb,
              dataframeTail_bound
                (show ({ self with dataframe_ := some ⟨columns7, rows⟩ } :
                  QGraphList).filename = some f from hf) hE]
            exact ⟨rfl, by simp [fsLookup, fsSet, List.lookup]⟩
  · intro hf
    cases hd : self.dataframe_ with
    | some d => rw [dataframe_warm hd, dataframeTail_unbound hf]
    | none =>
        cases hb : buildRows self.numbers self.list with
        | error e => rw [dataframe_cold_err hd hb]
        | ok rows =>
            rw [dataframe_cold_rows hd hb,
              dataframeTail_unbound
                (show ({ self with dataframe_ := some ⟨columns7, rows⟩ } :
                  QGraphList).filename = none from hf)]

/-- A collection of `[gA]` with a bound filename and a cold cache. -/
def cSelf7 : QGraphList :=
  { list := [gA], dataframe_ := none, numbers := numbersTable,
    filename := some "f.npy" }

/-- C7, witness: the re-save theorem applied to `cSelf7` (bound to
`f.npy`) and to an unbound collection, both over the empty file
system. -/
theorem C7_witness :
    ((dataframe cSelf7 []).2.2.2 = fsSet [] "f.npy" cSelf7.list
     ∧ fsLookup (fsSet [] "f.npy" cSelf7.list) "f.npy" = some cSelf7.list)
  ∧ (dataframe (pyInit (some [gA])) []).2.2.2 = [] :=
  ⟨(C7_summary_resave cSelf7 []).1 "f.npy" rfl (by decide) (by decide),
   (C7_summary_resave (pyInit (some [gA])) []).2 rfl⟩

theorem foldl_append_list (self : QGraphList) (l : List QGraph) :
    (l.foldl append self).list = self.list ++ l := by
  induction l generalizing self with
  | nil => simp
  | cons G rest ih =>
      rw [List.foldl_cons, ih]
      simp [append]

/-- C8, confirmed: a `KeyboardInterrupt` arriving while the drain loop
consumes completed generation tasks is caught: the call returns with no
exception propagated to the caller, the graceful-stop notice is
emitted, and every graph appended before the interrupt is still in the
collection. -/
theorem C8_interrupt_graceful (self : QGraphList) (yielded : List QGraph) :
    (grow_random_graphs self yielded .interrupt).raised = none
  ∧ (grow_random_graphs self yielded .interrupt).notice = true
  ∧ (grow_random_graphs self yielded .interrupt).state.list
      = self.list ++ yielded := by
  refine ⟨rfl, rfl, ?_⟩
  simp [grow_random_graphs, foldl_append_list]

/-- C9, claim as stated, refuted: an operand that is not a
`QGraphList` — here an arbitrary object that merely exposes a `list`
attribute holding an (empty) list of graphs — does not make `+` fail
with a `TypeError`: the bare `try` succeeds and a merged collection is
returned. -/
theorem C9_counterexample :
    addOp (pyInit (some [gA])) (.duck (some [])) =
      .ok (pyInit (some [gA])) := rfl

/-- C9, amended: `+` with a non-collection operand raises `TypeError`
when the operand lacks a `list` attribute (or when the cached-table
fast path touches its missing `dataframe_`), but a non-collection
operand exposing a graph-list `list` attribute is accepted; on two
collections `+` is semantically equivalent to merge: it returns a new
collection whose sequence is the concatenation of the two sequences. -/
theorem C9_add_typing (self : QGraphList) (o : AddOperand) :
    (o = .duck none → addOp self o = .error PyErr.typeError)
  ∧ (∀ l, o = .duck (some l) → self.dataframe_ ≠ none →
      addOp self o = .error PyErr.typeError)
  ∧ (∀ g, o = .qgl g →
      addOp self o =
        .ok { specMerge self g with
                dataframe_ := mergedDf self.dataframe_ g.dataframe_ }
      ∧ ({ specMerge self g with
             dataframe_ := mergedDf self.dataframe_ g.dataframe_ }
           : QGraphList).list = self.list ++ g.list) := by
  refine ⟨?_, ?_, ?_⟩
  · rintro rfl
    rfl
  · rintro l rfl hdf
    cases hd : self.dataframe_ with
    | none => exact absurd hd hdf
    | some d => simp [addOp, hd]
  · rintro g rfl
    exact ⟨rfl, rfl⟩

/-- C9, witness: the typing theorem applied to the two concrete
collections `[gA]` and `[gB]`. -/
theorem C9_witness :
    addOp (pyInit (some [gA])) (.qgl (pyInit (some [gB]))) =
      .ok { specMerge (pyInit (some [gA])) (pyInit (some [gB])) with
              dataframe_ := mergedDf (pyInit (some [gA])).dataframe_
                (pyInit (some [gB])).dataframe_ }
  ∧ ({ specMerge (pyInit (some [gA])) (pyInit (some [gB])) with
         dataframe_ := mergedDf (pyInit (some [gA])).dataframe_
           (pyInit (some [gB])).dataframe_ } : QGraphList).list
      = (pyInit (some [gA])).list ++ (pyInit (some [gB])).list :=
  (C9_add_typing (pyInit (some [gA])) (.qgl (pyInit (some [gB])))).2.2
    (pyInit (some [gB])) rfl

end QGraphs
